import Mathlib

/-!
Verification of the percentile-group data model and the
filtering/summarization pipeline of the income-distribution explorer
(`src/app.py`): the percentile-label parser (`parse_percentile`), the
percentile-group catalog (`get_income_groups`), the distribution filter
(`filter_data`), the summary aggregator (`prepare_summary_data`) and the
affordability classifier (`get_afford`).

Python floats are modelled as rationals: every numeric literal appearing
in the catalog, the cutoff table and the synthetic datasets below is a
short decimal, exactly representable in binary floating point, so the
rational model computes exactly the values the Python code computes on
these inputs.  `tuple`s of floats become `List ℚ`; exceptions
(`ValueError` from `float()`, the `IndexError` that the spec surfaces as
`MissingCutoffError`) become `none`.
-/

/-- Python `s.strip("p")`: remove every leading and every trailing `c`
character of the character list. -/
def pyStrip (c : Char) (s : List Char) : List Char :=
  ((s.dropWhile (fun x => x = c)).reverse.dropWhile (fun x => x = c)).reverse

/-- Python `s.split("p")` for a one-character separator: split the list at
every occurrence of `c`, keeping empty pieces (so the result is never
empty, and splitting the empty list yields `[[]]`, as in Python). -/
def pySplit (c : Char) : List Char → List (List Char)
  | [] => [[]]
  | x :: xs =>
    if x = c then [] :: pySplit c xs
    else
      match pySplit c xs with
      | [] => [[x]]
      | r :: rs => (x :: r) :: rs

/-- Scan the maximal digit prefix of `s`: its decimal value, the number of
digits read, and the remaining characters. -/
def readDigits (s : List Char) : Nat × Nat × List Char :=
  let ds := s.takeWhile Char.isDigit
  (ds.foldl (fun acc c => acc * 10 + (c.toNat - 48)) 0, ds.length, s.dropWhile Char.isDigit)

/-- The unsigned mantissa `digits [. digits]` of a Python float literal:
its rational value (the integer part `i` plus the fraction `f / 10 ^ nf`,
built with `mkRat` as one exact fraction) and the remaining characters;
`none` when not a single mantissa digit is present. -/
def pyFloatMantissa (s : List Char) : Option (ℚ × List Char) :=
  match readDigits s with
  | (i, ni, r1) =>
    match r1 with
    | '.' :: r2 =>
      match readDigits r2 with
      | (f, nf, r3) =>
        if ni + nf = 0 then none
        else some (mkRat (i * 10 ^ nf + f) (10 ^ nf), r3)
    | _ => if ni = 0 then none else some ((i : ℚ), r1)

/-- The digits of an exponent part, after the `e`/`E` and the optional
sign: they must be non-empty and must end the literal.  The mantissa is
scaled by `10 ^ d` (as one exact `mkRat` fraction). -/
def pyFloatExpoDigits (m : ℚ) (neg : Bool) (r : List Char) : Option ℚ :=
  match readDigits r with
  | (d, nd, r4) =>
    if nd = 0 then none
    else if r4 = [] then
      if neg then some (mkRat m.num (m.den * 10 ^ d))
      else some (mkRat (m.num * 10 ^ d) m.den)
    else none

/-- An optional exponent part `(e|E)[+-]digits` ending a float literal. -/
def pyFloatExpo (m : ℚ) (r : List Char) : Option ℚ :=
  match r with
  | [] => some m
  | 'e' :: '+' :: t => pyFloatExpoDigits m false t
  | 'e' :: '-' :: t => pyFloatExpoDigits m true t
  | 'e' :: t => pyFloatExpoDigits m false t
  | 'E' :: '+' :: t => pyFloatExpoDigits m false t
  | 'E' :: '-' :: t => pyFloatExpoDigits m true t
  | 'E' :: t => pyFloatExpoDigits m false t
  | _ => none

/-- A Python float literal without its optional leading sign. -/
def pyFloatUnsigned (s : List Char) : Option ℚ :=
  match pyFloatMantissa s with
  | none => none
  | some (m, r) => pyFloatExpo m r

/-- Python `float(s)` on the finite decimal-literal subset
`[+-] digits [. digits] [(e|E) [+-] digits]` with at least one mantissa
digit; `none` models the `ValueError` on anything else.  (`inf`/`nan`,
digit-group underscores and surrounding whitespace are accepted by Python
but are not modelled; no catalog label or dataset value uses them.) -/
def pyFloat (s : List Char) : Option ℚ :=
  match s with
  | '+' :: t => pyFloatUnsigned t
  | '-' :: t => (pyFloatUnsigned t).map (fun q => -q)
  | t => pyFloatUnsigned t

/-- `tuple(map(float, parts))`: convert every part to a float, the first
non-numeric part raising `ValueError` (modelled as `none`). -/
def mapFloats : List (List Char) → Option (List ℚ)
  | [] => some []
  | part :: rest =>
    match pyFloat part with
    | none => none
    | some q => (mapFloats rest).map (fun l => q :: l)

/-- `parse_percentile` of `src/app.py`:
`tuple(map(float, x.strip("p").split("p")))`.  The tuple is a `List ℚ` of
whatever arity the split produced; `none` models the `ValueError` raised
when some component is not numeric. -/
def parsePercentileChars (x : List Char) : Option (List ℚ) :=
  mapFloats (pySplit 'p' (pyStrip 'p' x))

/-- `parse_percentile` on Lean strings. -/
def parse_percentile (x : String) : Option (List ℚ) :=
  parsePercentileChars x.data

/-- The three group names of `get_income_groups`.  An inductive stands in
for the Python dict keys: `filter_data` only ever indexes the dict with
one of these three keys supplied by the UI select box. -/
inductive GroupName
  | key_groups
  | detailed_p_groups
  | detailed_top_groups

deriving instance DecidableEq for GroupName

/-- `get_income_groups` of `src/app.py`: the three fixed percentile
groupings, with the generated decile / unit-percentile / top bands built
from integer ranges exactly as the Python comprehensions build them. -/
def get_income_groups : GroupName → List String
  | .key_groups =>
    ["p0p100", "p0p50", "p50p90", "p90p99", "p99p100", "p99.99p100"] ++
      (List.range 10).map (fun i => "p" ++ toString (i * 10) ++ "p" ++ toString ((i + 1) * 10))
  | .detailed_p_groups =>
    (List.range 99).map (fun i => "p" ++ toString i ++ "p" ++ toString (i + 1)) ++
      ["p99p99.1", "p99.1p99.2", "p99.2p99.3", "p99.3p99.4", "p99.4p99.5",
       "p99.5p99.6", "p99.6p99.7", "p99.7p99.8", "p99.8p99.9"] ++
      ["p99.9p99.91", "p99.91p99.92", "p99.92p99.93", "p99.93p99.94", "p99.94p99.95",
       "p99.95p99.96", "p99.96p99.97", "p99.97p99.98", "p99.98p99.99"] ++
      ["p99.99p99.991", "p99.991p99.992", "p99.992p99.993", "p99.993p99.994",
       "p99.994p99.995", "p99.995p99.996", "p99.996p99.997", "p99.997p99.998",
       "p99.998p99.999"] ++
      ["p99.999p100"]
  | .detailed_top_groups =>
    (List.range 100).map (fun i => "p" ++ toString i ++ "p100")

/-- One row of a country dataset: columns `variable`, `year`, `percentile`
and `value`.  (`variable` is a Lean keyword, hence the field name
`variableId`.) -/
structure Observation where
  variableId : String
  year : ℤ
  percentile : String
  value : ℚ

deriving instance DecidableEq for Observation

/-- `filter_data` of `src/app.py`: keep the rows whose variable and year
match and whose percentile label is a member of the chosen group. -/
def filter_data (df : List Observation) (v : String) (year : ℤ)
    (group_name : GroupName) : List Observation :=
  let df1 := df.filter (fun r => r.variableId == v)
  let df2 := df1.filter (fun r => r.year == year)
  df2.filter (fun r => (get_income_groups group_name).contains r.percentile)

/-- `get_afford` of `src/app.py`: guess what a person with this income can
afford.  The Python `match` chain of `case n if n < bound` guards becomes
the same chain of conditionals. -/
def get_afford (income_usd : ℤ) : String :=
  if income_usd ≤ 0 then "☠️"
  else if income_usd < 100 then "nice dinner for two 🍽️"
  else if income_usd < 200 then "pair of Nike shoes 👟"
  else if income_usd < 300 then "weekend hotel stay 🏨"
  else if income_usd < 500 then "budget smartphone 📱"
  else if income_usd < 750 then "round-trip domestic flight ✈️"
  else if income_usd < 1000 then "month's rent in a small town 🏠"
  else if income_usd < 2000 then "gaming console 🎮"
  else if income_usd < 3000 then "high-end laptop 💻"
  else if income_usd < 5000 then "used motorcycle 🏍️"
  else if income_usd < 7500 then "home theater system 📺"
  else if income_usd < 10000 then "semester at community college 🎓"
  else if income_usd < 25000 then "decent used car 🚗"
  else if income_usd < 35000 then "new economy car 🚙"
  else if income_usd < 50000 then "wedding celebration 💒"
  else if income_usd < 75000 then "year at private university 🎓"
  else if income_usd < 100000 then "Tesla Model 3 🚘"
  else if income_usd < 150000 then "mobile home 🏠"
  else if income_usd < 250000 then "small apartment in suburbs 🏢"
  else if income_usd < 350000 then "condo in a major city 🌃"
  else if income_usd < 500000 then "nice house in most cities 🏡"
  else if income_usd < 750000 then "beach house 🏖️"
  else if income_usd < 1500000 then "luxury yacht ⛵"
  else if income_usd < 2000000 then "Bugatti supercar 🏎️"
  else if income_usd < 3000000 then "penthouse apartment 🏙️"
  else if income_usd < 5000000 then "private jet share ✈️"
  else if income_usd < 7500000 then "small vineyard 🍇"
  else if income_usd < 10000000 then "mansion in Beverly Hills 🏰"
  else if income_usd < 20000000 then "private jet ✈️"
  else if income_usd < 30000000 then "luxury hotel 🏨"
  else if income_usd < 50000000 then "private island 🏝️"
  else if income_usd < 75000000 then "minor league sports team ⚾"
  else if income_usd < 100000000 then "professional sports team 🏈"
  else if income_usd < 200000000 then "skyscraper 🏢"
  else if income_usd < 300000000 then "cruise ship 🚢"
  else if income_usd < 500000000 then "space tourism ticket 🚀"
  else if income_usd < 750000000 then "major hospital 🏥"
  else if income_usd < 1000000000 then "satellite constellation 🛰️"
  else if income_usd < 5000000000 then "nuclear power plant ⚡"
  else if income_usd < 10000000000 then "An aircraft carrier 🚢"
  else "small country's GDP 🌍"

/-- Modelled from the spec: the affordability boundary table, ascending
(exclusive upper bound, label) pairs.  This is the spec's formulation of
`get_afford` (section 4.4), kept separate so that the conditional chain of
the source can be proved equal to a first-match-above search of this
table. -/
def affordTable : List (ℤ × String) :=
  [(100, "nice dinner for two 🍽️"),
   (200, "pair of Nike shoes 👟"),
   (300, "weekend hotel stay 🏨"),
   (500, "budget smartphone 📱"),
   (750, "round-trip domestic flight ✈️"),
   (1000, "month's rent in a small town 🏠"),
   (2000, "gaming console 🎮"),
   (3000, "high-end laptop 💻"),
   (5000, "used motorcycle 🏍️"),
   (7500, "home theater system 📺"),
   (10000, "semester at community college 🎓"),
   (25000, "decent used car 🚗"),
   (35000, "new economy car 🚙"),
   (50000, "wedding celebration 💒"),
   (75000, "year at private university 🎓"),
   (100000, "Tesla Model 3 🚘"),
   (150000, "mobile home 🏠"),
   (250000, "small apartment in suburbs 🏢"),
   (350000, "condo in a major city 🌃"),
   (500000, "nice house in most cities 🏡"),
   (750000, "beach house 🏖️"),
   (1500000, "luxury yacht ⛵"),
   (2000000, "Bugatti supercar 🏎️"),
   (3000000, "penthouse apartment 🏙️"),
   (5000000, "private jet share ✈️"),
   (7500000, "small vineyard 🍇"),
   (10000000, "mansion in Beverly Hills 🏰"),
   (20000000, "private jet ✈️"),
   (30000000, "luxury hotel 🏨"),
   (50000000, "private island 🏝️"),
   (75000000, "minor league sports team ⚾"),
   (100000000, "professional sports team 🏈"),
   (200000000, "skyscraper 🏢"),
   (300000000, "cruise ship 🚢"),
   (500000000, "space tourism ticket 🚀"),
   (750000000, "major hospital 🏥"),
   (1000000000, "satellite constellation 🛰️"),
   (5000000000, "nuclear power plant ⚡"),
   (10000000000, "An aircraft carrier 🚢")]

/-- The label of the first table entry whose bound is strictly above the
amount. -/
def firstMatch (amount : ℤ) : List (ℤ × String) → Option String
  | [] => none
  | p :: rest => if amount < p.1 then some p.2 else firstMatch amount rest

/-- Modelled from the spec: the classifier as an ordered-threshold lookup
(section 4.4) — sentinel at or below zero, otherwise the label of the
first bound strictly greater than the amount, catch-all at or beyond the
last finite bound. -/
def affordLookup (amount : ℤ) : String :=
  if amount ≤ 0 then "☠️"
  else (firstMatch amount affordTable).getD "small country's GDP 🌍"

/-- The fixed cutoff table of `prepare_summary_data`.  The decimal cutoffs
99.9, 99.99 and 99.999 are written as exact fractions. -/
def percentile_cutoffs : List (ℚ × String) :=
  [(1, "Bottom 1%"), (5, "Bottom 5%"), (10, "Bottom 10%"), (50, "Middle 50%"),
   (90, "Top 10%"), (95, "Top 5%"), (99, "Top 1%"),
   (mkRat 999 10, "Top 0.1%"), (mkRat 9999 100, "Top 0.01%"),
   (mkRat 99999 1000, "Top 0.001%")]

/-- Python `int(x)` on a float: truncation toward zero, which on a
rational with positive denominator is truncating division of the
numerator by the denominator. -/
def pyInt (q : ℚ) : ℤ := q.num.tdiv q.den

/-- Python `round(x)` on a float: the nearest integer, ties going to the
even neighbour.  `f` is the floor of `q` (flooring division of numerator
by denominator) and `r = q.num - f * q.den` the non-negative remainder,
so `q - f = r / q.den`: the fraction part is below, above or exactly one
half according as `2 * r` is below, above or equal to `q.den`. -/
def pyRound (q : ℚ) : ℤ :=
  let f := q.num.fdiv q.den
  let r := q.num - f * q.den
  if 2 * r < q.den then f
  else if (q.den : ℤ) < 2 * r then f + 1
  else if f % 2 = 0 then f else f + 1

/-- One summary row: the fields `percentile`, `value_usd` and `afford` of
the record built by `prepare_summary_data`.  (The babel-formatted `usd`
and `local` strings of the source are locale formatting delegated to an
external collaborator and are not modelled.) -/
structure SummaryRecord where
  percentile : String
  value_usd : ℤ
  afford : String

deriving instance DecidableEq for SummaryRecord

/-- The body of the cutoff loop of `prepare_summary_data`: take the value
of the first row whose percentile equals the cutoff (`none` models the
`IndexError` — the spec's `MissingCutoffError` — raised when there is
none), truncate it to an integer, divide by the conversion rate and
round, and attach the `get_afford` label of the rounded amount. -/
def summaryRecord (df : List (ℚ × ℚ)) (conversion_rate : ℚ) (c : ℚ × String) :
    Option SummaryRecord :=
  ((df.filter (fun r => r.1 == c.1)).head?).map (fun r =>
    let value := pyInt r.2
    let value_usd := pyRound ((value : ℚ) / conversion_rate)
    ⟨c.2, value_usd, get_afford value_usd⟩)

/-- The `for cutoff, label in percentile_cutoffs` loop: build the records
in cutoff order, the first missing cutoff raising. -/
def summaryRecords (df : List (ℚ × ℚ)) (conversion_rate : ℚ) :
    List (ℚ × String) → Option (List SummaryRecord)
  | [] => some []
  | c :: rest =>
    match summaryRecord df conversion_rate c with
    | none => none
    | some record => (summaryRecords df conversion_rate rest).map (fun l => record :: l)

/-- `prepare_summary_data` of `src/app.py`, on the processed dataframe
whose rows are (percentile lower bound as float, value) pairs: one
summary record per cutoff of the fixed table, in cutoff order. -/
def prepare_summary_data (df : List (ℚ × ℚ)) (conversion_rate : ℚ) :
    Option (List SummaryRecord) :=
  summaryRecords df conversion_rate percentile_cutoffs

/-- The synthetic round-trip dataset of the spec (section 8): exactly the
ten cutoff percentiles with native values 1, 5, 10, 50, 90, 95, 99, 999,
9999, 99999. -/
def roundTripDf : List (ℚ × ℚ) :=
  [(1, 1), (5, 5), (10, 10), (50, 50), (90, 90), (95, 95), (99, 99),
   (mkRat 999 10, 999), (mkRat 9999 100, 9999), (mkRat 99999 1000, 99999)]

/-- Peeling one entry off a first-match-above search. -/
theorem getD_firstMatch_cons (n b : ℤ) (s d : String) (rest : List (ℤ × String)) :
    (firstMatch n ((b, s) :: rest)).getD d =
      if n < b then s else (firstMatch n rest).getD d := by
  by_cases h : n < b <;> simp [firstMatch, h]

/-- An empty table leaves the default label. -/
theorem getD_firstMatch_nil (n : ℤ) (d : String) :
    (firstMatch n []).getD d = d := rfl

/-- A first-match-above search misses when every bound is at or below the
amount. -/
theorem firstMatch_eq_none (n : ℤ) (l : List (ℤ × String))
    (h : ∀ p ∈ l, p.1 ≤ n) : firstMatch n l = none := by
  induction l with
  | nil => rfl
  | cons a t ih =>
    have ha : ¬ n < a.1 := by
      have := h a (List.mem_cons_self a t)
      omega
    simp only [firstMatch, if_neg ha]
    exact ih fun p hp => h p (List.mem_cons_of_mem a hp)

set_option maxHeartbeats 3200000 in
/-- C3: the affordability classifier `get_afford` is total over ℤ; at or
below zero it returns the sentinel label, above zero it returns the label
of the first exclusive upper bound of the ascending boundary table that is
strictly greater than the amount, and at or beyond 10000000000 the single
catch-all label; in particular `get_afford 0 = get_afford (-5)`,
`get_afford 99 ≠ get_afford 100` and
`get_afford 10000000000 = get_afford 50000000000`. -/
theorem get_afford_classifier :
    (∀ n : ℤ, n ≤ 0 → get_afford n = "☠️") ∧
    (∀ n : ℤ, 0 < n → get_afford n = affordLookup n) ∧
    (∀ n : ℤ, 10000000000 ≤ n → get_afford n = "small country's GDP 🌍") ∧
    get_afford 0 = get_afford (-5) ∧
    get_afford 99 ≠ get_afford 100 ∧
    get_afford 10000000000 = get_afford 50000000000 := by
  have htab : ∀ n : ℤ, 0 < n → get_afford n = affordLookup n := by
    intro n hn
    have h0 : ¬ n ≤ 0 := by omega
    unfold get_afford affordLookup
    simp only [affordTable, getD_firstMatch_cons, getD_firstMatch_nil, if_neg h0]
  refine ⟨?_, htab, ?_, by decide, by decide, by decide⟩
  · intro n hn
    simp [get_afford, hn]
  · intro n hn
    rw [htab n (by omega)]
    unfold affordLookup
    rw [if_neg (by omega : ¬ n ≤ 0), firstMatch_eq_none, Option.getD_none]
    intro p hp
    have hall : ∀ q ∈ affordTable, q.1 ≤ 10000000000 := by decide
    have := hall p hp
    omega

/-- C3 witness: the classifier theorem applied at the concrete amounts
-7, 12345 and 99999999999. -/
theorem get_afford_classifier_spot :
    get_afford (-7) = "☠️" ∧ get_afford 12345 = affordLookup 12345 ∧
      get_afford 99999999999 = "small country's GDP 🌍" :=
  ⟨get_afford_classifier.1 (-7) (by decide),
   get_afford_classifier.2.1 12345 (by decide),
   get_afford_classifier.2.2.1 99999999999 (by decide)⟩

set_option maxRecDepth 4000 in
set_option maxHeartbeats 1600000 in
/-- C4: the catalog has exactly the three groups, of sizes 16
(6 named splits plus the 10 decile bands), 127 (99 unit-percentile bands,
9 tenth bands, 9 hundredth bands, 9 thousandth bands and the single band
p99.999p100) and 100 (p0p100 through p99p100). -/
theorem income_groups_sizes :
    (∀ g : GroupName,
      g = .key_groups ∨ g = .detailed_p_groups ∨ g = .detailed_top_groups) ∧
    (get_income_groups .key_groups).length = 6 + 10 ∧
    (get_income_groups .detailed_p_groups).length = 99 + 9 + 9 + 9 + 1 ∧
    (get_income_groups .detailed_top_groups).length = 100 ∧
    (get_income_groups .detailed_top_groups).head? = some "p0p100" ∧
    (get_income_groups .detailed_top_groups).getLast? = some "p99p100" := by
  refine ⟨fun g => ?_, by decide, by decide, by decide, by decide, by decide⟩
  cases g <;> simp

/-- The three successive dataframe filters of `filter_data` collapse into
one filter by the conjunction of the three row predicates. -/
theorem filter_data_eq_filter (df : List Observation) (v : String) (y : ℤ)
    (g : GroupName) :
    filter_data df v y g =
      df.filter (fun r => r.variableId == v && r.year == y &&
        (get_income_groups g).contains r.percentile) := by
  unfold filter_data
  rw [List.filter_filter, List.filter_filter]
  apply List.filter_congr
  intro a _
  cases hv : a.variableId == v <;> cases hy : a.year == y <;>
    cases hc : (get_income_groups g).contains a.percentile <;> simp [hv, hy, hc]

/-- C5: every observation returned by `filter_data` comes from the input
and has the requested variable, the requested year and a percentile label
belonging to the requested catalog group, and every such input
observation is returned — no other rows appear in the result. -/
theorem filter_data_membership :
    ∀ (df : List Observation) (v : String) (y : ℤ) (g : GroupName)
      (o : Observation),
      o ∈ filter_data df v y g ↔
        o ∈ df ∧ o.variableId = v ∧ o.year = y ∧
          o.percentile ∈ get_income_groups g := by
  intro df v y g o
  rw [filter_data_eq_filter, List.mem_filter]
  simp [List.contains, List.elem_iff, and_assoc]

/-- C10: `filter_data` is deterministic and order-preserving — it is
exactly `List.filter` of the conjunction of the three row predicates, and
its output is a sublist (a subsequence in input order) of the input. -/
theorem filter_data_order_preserving :
    ∀ (df : List Observation) (v : String) (y : ℤ) (g : GroupName),
      filter_data df v y g =
        df.filter (fun r => r.variableId == v && r.year == y &&
          (get_income_groups g).contains r.percentile) ∧
      (filter_data df v y g).Sublist df := by
  intro df v y g
  refine ⟨filter_data_eq_filter df v y g, ?_⟩
  rw [filter_data_eq_filter df v y g]
  exact List.filter_sublist df

/-- C9: when no row of the dataset matches the requested variable and
year, `filter_data` returns the empty list (and, being a total function,
it never throws). -/
theorem filter_data_no_match :
    ∀ (df : List Observation) (v : String) (y : ℤ) (g : GroupName),
      (∀ o ∈ df, ¬(o.variableId = v ∧ o.year = y)) →
      filter_data df v y g = [] := by
  intro df v y g h
  rw [filter_data_eq_filter]
  rw [List.filter_eq_nil_iff]
  intro o ho
  have := h o ho
  cases hv : o.variableId == v <;> cases hy : o.year == y <;>
    simp_all

/-- C9 witness: a concrete one-row dataset with a different variable and
year filters to the empty list. -/
theorem filter_data_no_match_spot :
    filter_data [⟨"shweal992j", 2020, "p0p100", 17⟩] "aptincj992" 2021
      GroupName.key_groups = [] :=
  filter_data_no_match _ _ _ _ (by decide)

/-- The cutoff loop fails as soon as one of its cutoffs is missing. -/
theorem summaryRecords_eq_none (df : List (ℚ × ℚ)) (rate : ℚ)
    (cs : List (ℚ × String)) (c : ℚ × String) (hc : c ∈ cs)
    (hnone : summaryRecord df rate c = none) :
    summaryRecords df rate cs = none := by
  induction cs with
  | nil => cases hc
  | cons a t ih =>
    rcases List.mem_cons.mp hc with rfl | hmem
    · simp [summaryRecords, hnone]
    · unfold summaryRecords
      cases h : summaryRecord df rate a
      · rfl
      · simp [ih hmem]

/-- C6: `prepare_summary_data` fails (the `IndexError` the spec surfaces
as `MissingCutoffError`) whenever one of the ten cutoff percentiles has no
observation with exactly that percentile value; the cutoff is never
silently skipped. -/
theorem prepare_summary_missing_cutoff :
    ∀ (df : List (ℚ × ℚ)) (rate : ℚ) (c : ℚ × String),
      c ∈ percentile_cutoffs → (∀ r ∈ df, r.1 ≠ c.1) →
      prepare_summary_data df rate = none := by
  intro df rate c hc hmiss
  unfold prepare_summary_data
  apply summaryRecords_eq_none df rate _ c hc
  unfold summaryRecord
  have hnil : df.filter (fun r => r.1 == c.1) = [] := by
    rw [List.filter_eq_nil_iff]
    intro r hr
    simpa using hmiss r hr
  rw [hnil]
  rfl

set_option maxRecDepth 2000 in
/-- C6 witness: the missing-cutoff theorem applied to a nine-row dataset
lacking the 99.9 cutoff. -/
theorem prepare_summary_missing_cutoff_spot :
    prepare_summary_data
      [((1 : ℚ), (1 : ℚ)), (5, 5), (10, 10), (50, 50), (90, 90), (95, 95),
        (99, 99), (mkRat 9999 100, 9999), (mkRat 99999 1000, 99999)] 2 = none :=
  prepare_summary_missing_cutoff _ 2 (mkRat 999 10, "Top 0.1%") (by decide) (by decide)

/-- Evaluating one cutoff of the summary: when the filtered lookup finds
the row `(p, v2)` and the converted, rounded value is `v`, the record is
the cutoff label, `v` and the affordability label of `v`. -/
theorem summaryRecord_eval (df : List (ℚ × ℚ)) (rate : ℚ) (c : ℚ × String)
    (p v2 : ℚ) (hr : (df.filter (fun x => x.1 == c.1)).head? = some (p, v2))
    (v : ℤ) (hv : pyRound ((pyInt v2 : ℚ) / rate) = v) :
    summaryRecord df rate c = some ⟨c.2, v, get_afford v⟩ := by
  unfold summaryRecord
  rw [hr]
  simp only [Option.map_some', hv]

/-- The full summary of the synthetic round-trip dataset at rate 2,
record by record. -/
theorem summaryRecords_roundTrip :
    summaryRecords roundTripDf 2 percentile_cutoffs =
      some [⟨"Bottom 1%", 0, get_afford 0⟩, ⟨"Bottom 5%", 2, get_afford 2⟩,
            ⟨"Bottom 10%", 5, get_afford 5⟩, ⟨"Middle 50%", 25, get_afford 25⟩,
            ⟨"Top 10%", 45, get_afford 45⟩, ⟨"Top 5%", 48, get_afford 48⟩,
            ⟨"Top 1%", 50, get_afford 50⟩, ⟨"Top 0.1%", 500, get_afford 500⟩,
            ⟨"Top 0.01%", 5000, get_afford 5000⟩,
            ⟨"Top 0.001%", 50000, get_afford 50000⟩] := by
  have h1 : summaryRecord roundTripDf 2 (1, "Bottom 1%") =
      some ⟨"Bottom 1%", 0, get_afford 0⟩ :=
    summaryRecord_eval _ _ _ 1 1 (by decide) 0 (by with_unfolding_all decide)
  have h2 : summaryRecord roundTripDf 2 (5, "Bottom 5%") =
      some ⟨"Bottom 5%", 2, get_afford 2⟩ :=
    summaryRecord_eval _ _ _ 5 5 (by decide) 2 (by with_unfolding_all decide)
  have h3 : summaryRecord roundTripDf 2 (10, "Bottom 10%") =
      some ⟨"Bottom 10%", 5, get_afford 5⟩ :=
    summaryRecord_eval _ _ _ 10 10 (by decide) 5 (by with_unfolding_all decide)
  have h4 : summaryRecord roundTripDf 2 (50, "Middle 50%") =
      some ⟨"Middle 50%", 25, get_afford 25⟩ :=
    summaryRecord_eval _ _ _ 50 50 (by decide) 25 (by with_unfolding_all decide)
  have h5 : summaryRecord roundTripDf 2 (90, "Top 10%") =
      some ⟨"Top 10%", 45, get_afford 45⟩ :=
    summaryRecord_eval _ _ _ 90 90 (by decide) 45 (by with_unfolding_all decide)
  have h6 : summaryRecord roundTripDf 2 (95, "Top 5%") =
      some ⟨"Top 5%", 48, get_afford 48⟩ :=
    summaryRecord_eval _ _ _ 95 95 (by decide) 48 (by with_unfolding_all decide)
  have h7 : summaryRecord roundTripDf 2 (99, "Top 1%") =
      some ⟨"Top 1%", 50, get_afford 50⟩ :=
    summaryRecord_eval _ _ _ 99 99 (by decide) 50 (by with_unfolding_all decide)
  have h8 : summaryRecord roundTripDf 2 (mkRat 999 10, "Top 0.1%") =
      some ⟨"Top 0.1%", 500, get_afford 500⟩ :=
    summaryRecord_eval _ _ _ (mkRat 999 10) 999 (by decide) 500
      (by with_unfolding_all decide)
  have h9 : summaryRecord roundTripDf 2 (mkRat 9999 100, "Top 0.01%") =
      some ⟨"Top 0.01%", 5000, get_afford 5000⟩ :=
    summaryRecord_eval _ _ _ (mkRat 9999 100) 9999 (by decide) 5000
      (by with_unfolding_all decide)
  have h10 : summaryRecord roundTripDf 2 (mkRat 99999 1000, "Top 0.001%") =
      some ⟨"Top 0.001%", 50000, get_afford 50000⟩ :=
    summaryRecord_eval _ _ _ (mkRat 99999 1000) 99999 (by decide) 50000
      (by with_unfolding_all decide)
  simp only [percentile_cutoffs, summaryRecords, h1, h2, h3, h4, h5, h6, h7,
    h8, h9, h10, Option.map_some']

/-- C1 counterexample: on the synthetic round-trip dataset with rate 2 the
claimed reference-currency values [0, 3, 5, 25, 45, 48, 50, 500, 5000,
50000] are not produced — Python `round` sends 5/2 to 2 (ties go to the
even neighbour), not to 3. -/
theorem roundTrip_summary_not_claimed :
    (prepare_summary_data roundTripDf 2).map
        (fun l => l.map (fun r => r.value_usd)) ≠
      some [0, 3, 5, 25, 45, 48, 50, 500, 5000, 50000] := by
  unfold prepare_summary_data
  rw [summaryRecords_roundTrip]
  decide

/-- C1 amended: the summary of the synthetic dataset at rate 2 has
reference-currency values [0, 2, 5, 25, 45, 48, 50, 500, 5000, 50000] in
cutoff order — each native value divided by 2 and rounded to the nearest
integer with ties to even, as Python `round` rounds — each record paired
with the `get_afford` label of its rounded amount. -/
theorem roundTrip_summary :
    prepare_summary_data roundTripDf 2 =
      some [⟨"Bottom 1%", 0, get_afford 0⟩, ⟨"Bottom 5%", 2, get_afford 2⟩,
            ⟨"Bottom 10%", 5, get_afford 5⟩, ⟨"Middle 50%", 25, get_afford 25⟩,
            ⟨"Top 10%", 45, get_afford 45⟩, ⟨"Top 5%", 48, get_afford 48⟩,
            ⟨"Top 1%", 50, get_afford 50⟩, ⟨"Top 0.1%", 500, get_afford 500⟩,
            ⟨"Top 0.01%", 5000, get_afford 5000⟩,
            ⟨"Top 0.001%", 50000, get_afford 50000⟩] := by
  unfold prepare_summary_data
  exact summaryRecords_roundTrip


/-- `mapFloats` fails exactly when some part is not numeric. -/
theorem mapFloats_eq_none_iff (l : List (List Char)) :
    mapFloats l = none ↔ ∃ part ∈ l, pyFloat part = none := by
  induction l with
  | nil => simp [mapFloats]
  | cons a t ih =>
    cases h : pyFloat a with
    | none => simp [mapFloats, h]
    | some q => simp [mapFloats, h, ih, Option.map_eq_none']

/-- A successful `mapFloats` yields one float per part. -/
theorem mapFloats_length (l : List (List Char)) (qs : List ℚ)
    (h : mapFloats l = some qs) : qs.length = l.length := by
  induction l generalizing qs with
  | nil => simp [mapFloats] at h; simp [← h]
  | cons a t ih =>
    unfold mapFloats at h
    cases ha : pyFloat a with
    | none => rw [ha] at h; cases h
    | some q =>
      rw [ha] at h
      cases ht : mapFloats t with
      | none => rw [ht] at h; cases h
      | some l2 =>
        rw [ht] at h
        cases h
        simp [ih l2 ht]

/-- C2 counterexample: after stripping its leading "p", the label "p50"
has a single component (zero internal separators), yet `parse_percentile`
succeeds with the one-element tuple (50.0,) instead of failing. -/
theorem parse_percentile_zero_sep_no_error :
    pySplit 'p' (pyStrip 'p' "p50".data) = [['5', '0']] ∧
      parse_percentile "p50" = some [(50 : ℚ)] := by
  exact ⟨by decide, by decide⟩

/-- C2 amended: `parse_percentile` fails (raises) exactly when some
component of the stripped-and-split label is not numeric; a label with all
components numeric but zero or more than one internal separator instead
returns — without error — a tuple with exactly one float per component
(so not necessarily a pair).  Malformed labels never yield a silent
default. -/
theorem parse_percentile_error_iff :
    (∀ x : List Char,
      parsePercentileChars x = none ↔
        ∃ part ∈ pySplit 'p' (pyStrip 'p' x), pyFloat part = none) ∧
    (∀ (x : List Char) (qs : List ℚ),
      parsePercentileChars x = some qs →
        qs.length = (pySplit 'p' (pyStrip 'p' x)).length) :=
  ⟨fun _ => mapFloats_eq_none_iff _, fun _ qs h => mapFloats_length _ qs h⟩

/-- C2 amended witness: the error characterization applied to the label
"p50" — one component, numeric, hence a one-element result. -/
theorem parse_percentile_error_iff_spot :
    parse_percentile "p50" = some [(50 : ℚ)] ∧
      [(50 : ℚ)].length = (pySplit 'p' (pyStrip 'p' "p50".data)).length :=
  ⟨by decide, parse_percentile_error_iff.2 "p50".data [(50 : ℚ)] (by decide)⟩

/-- Boolean well-formedness check of one catalog label: it parses to a
pair (lower, upper) with 0 ≤ lower < upper ≤ 100. -/
def labelOK (l : String) : Bool :=
  match parse_percentile l with
  | some [lo, hi] => decide (0 ≤ lo) && decide (lo < hi) && decide (hi ≤ 100)
  | _ => false

/-- Unfolding of the boolean label check. -/
theorem labelOK_spec {l : String} (h : labelOK l = true) :
    ∃ lo hi, parse_percentile l = some [lo, hi] ∧
      0 ≤ lo ∧ lo < hi ∧ hi ≤ 100 := by
  unfold labelOK at h
  split at h
  next lo hi heq => exact ⟨lo, hi, heq, by simpa [and_assoc] using h⟩
  next => cases h

set_option maxRecDepth 4000 in
/-- C7: every label in every catalog group parses to a pair
(lower, upper) with 0 ≤ lower < upper ≤ 100. -/
theorem catalog_labels_wellformed :
    ∀ (g : GroupName) (l : String), l ∈ get_income_groups g →
      ∃ lo hi, parse_percentile l = some [lo, hi] ∧
        0 ≤ lo ∧ lo < hi ∧ hi ≤ 100 := by
  intro g l hl
  apply labelOK_spec
  have hall : (get_income_groups g).all labelOK = true := by
    cases g
    · decide
    · decide
    · decide
  exact List.all_eq_true.mp hall l hl

/-- C7 witness: the well-formedness theorem applied to the key-group label
"p99.99p100". -/
theorem catalog_labels_wellformed_spot :
    "p99.99p100" ∈ get_income_groups GroupName.key_groups ∧
      ∃ lo hi, parse_percentile "p99.99p100" = some [lo, hi] ∧
        0 ≤ lo ∧ lo < hi ∧ hi ≤ 100 :=
  ⟨by decide,
   catalog_labels_wellformed GroupName.key_groups "p99.99p100" (by decide)⟩

/-- Splitting a list not containing the separator leaves one piece. -/
theorem pySplit_no_sep (c : Char) (l : List Char) (h : c ∉ l) :
    pySplit c l = [l] := by
  induction l with
  | nil => rfl
  | cons x xs ih =>
    have hx : ¬ x = c := by rintro rfl; exact h (List.mem_cons_self x xs)
    have hxs : c ∉ xs := fun hm => h (List.mem_cons_of_mem x hm)
    unfold pySplit
    rw [if_neg hx, ih hxs]

/-- Splitting at the first separator occurrence: the separator-free prefix
becomes the first piece. -/
theorem pySplit_append (c : Char) (a b : List Char) (h : c ∉ a) :
    pySplit c (a ++ c :: b) = a :: pySplit c b := by
  induction a with
  | nil =>
    simp only [List.nil_append]
    conv_lhs => rw [pySplit]
    rw [if_pos rfl]
  | cons x a' ih =>
    have hx : ¬ x = c := by rintro rfl; exact h (List.mem_cons_self x a')
    have ha' : c ∉ a' := fun hm => h (List.mem_cons_of_mem x hm)
    simp only [List.cons_append]
    conv_lhs => rw [pySplit]
    rw [if_neg hx, ih ha']

/-- Stripping `p` off a well-formed label `p<a>p<b>` (with `a` and `b`
non-empty and `p`-free) removes exactly the leading `p`. -/
theorem pyStrip_label (a b : List Char) (hpa : 'p' ∉ a) (hpb : 'p' ∉ b)
    (hna : a ≠ []) (hnb : b ≠ []) :
    pyStrip 'p' ('p' :: a ++ 'p' :: b) = a ++ 'p' :: b := by
  obtain ⟨x, a', rfl⟩ : ∃ x a', a = x :: a' := by
    cases a with
    | nil => exact absurd rfl hna
    | cons x a' => exact ⟨x, a', rfl⟩
  have hx : ¬ x = 'p' := by rintro rfl; exact hpa (List.mem_cons_self _ _)
  obtain ⟨y, t, hbr⟩ : ∃ y t, b.reverse = y :: t := by
    cases hr : b.reverse with
    | nil => exact absurd (List.reverse_eq_nil_iff.mp hr) hnb
    | cons y t => exact ⟨y, t, rfl⟩
  have hy : ¬ y = 'p' := by
    have hyb : y ∈ b := by
      rw [← List.mem_reverse, hbr]
      exact List.mem_cons_self y t
    rintro rfl
    exact hpb hyb
  unfold pyStrip
  have hfront : List.dropWhile (fun ch => ch = 'p')
      ('p' :: (x :: a') ++ 'p' :: b) = (x :: a') ++ 'p' :: b := by
    simp only [List.cons_append, List.dropWhile_cons]
    simp [hx]
  rw [hfront]
  have hshape : ((x :: a') ++ 'p' :: b).reverse =
      y :: (t ++ 'p' :: (x :: a').reverse) := by
    simp [List.reverse_append, hbr]
  have hback : ((x :: a') ++ 'p' :: b).reverse.dropWhile (fun ch => ch = 'p') =
      ((x :: a') ++ 'p' :: b).reverse := by
    rw [hshape, List.dropWhile_cons_of_neg]
    simpa using hy
  rw [hback, List.reverse_reverse]

/-- `readDigits` consumes exactly the maximal digit prefix. -/
theorem readDigits_split (s : List Char) :
    s = s.takeWhile Char.isDigit ++ (readDigits s).2.2 := by
  simp [readDigits]

/-- `pyFloat` rejects the empty string. -/
theorem pyFloat_nil : pyFloat [] = none := rfl

/-- A successful mantissa parse consumes only digits and at most one dot
before handing over the rest. -/
theorem pyFloatMantissa_chars {s : List Char} {m : ℚ} {r : List Char}
    (h : pyFloatMantissa s = some (m, r)) :
    ∃ pre, s = pre ++ r ∧ ∀ ch ∈ pre, ch.isDigit = true ∨ ch = '.' := by
  unfold pyFloatMantissa at h
  split at h
  rename_i i ni r1 heq
  have hs1 : s = s.takeWhile Char.isDigit ++ r1 := by
    have hh := readDigits_split s
    rw [heq] at hh
    simpa using hh
  split at h
  · rename_i r1old r2
    split at h
    rename_i f nf r3 heq2
    have hs2 : r2 = r2.takeWhile Char.isDigit ++ r3 := by
      have hh := readDigits_split r2
      rw [heq2] at hh
      simpa using hh
    split at h
    · cases h
    · simp only [Option.some.injEq, Prod.mk.injEq] at h
      obtain ⟨hm, hr3⟩ := h
      refine ⟨s.takeWhile Char.isDigit ++ '.' :: r2.takeWhile Char.isDigit,
        ?_, ?_⟩
      · rw [← hr3]
        conv_lhs => rw [hs1]
        conv_lhs => rw [hs2]
        simp
      · intro ch hch
        rcases List.mem_append.mp hch with hch | hch
        · exact Or.inl (List.mem_takeWhile_imp hch)
        · rcases List.mem_cons.mp hch with rfl | hch
          · exact Or.inr rfl
          · exact Or.inl (List.mem_takeWhile_imp hch)
  · split at h
    · cases h
    · simp only [Option.some.injEq, Prod.mk.injEq] at h
      obtain ⟨hm, hr1⟩ := h
      refine ⟨s.takeWhile Char.isDigit, ?_, ?_⟩
      · rw [← hr1]
        exact hs1
      · intro ch hch
        exact Or.inl (List.mem_takeWhile_imp hch)

/-- A successful exponent-digits parse means the rest was all digits. -/
theorem pyFloatExpoDigits_chars {m q : ℚ} {neg : Bool} {r : List Char}
    (h : pyFloatExpoDigits m neg r = some q) :
    ∀ ch ∈ r, ch.isDigit = true := by
  unfold pyFloatExpoDigits at h
  split at h
  rename_i d nd r4 heq
  have hs : r = r.takeWhile Char.isDigit ++ r4 := by
    have hh := readDigits_split r
    rw [heq] at hh
    simpa using hh
  split at h
  · cases h
  · split at h
    · rename_i h4
      intro ch hch
      rw [hs, h4, List.append_nil] at hch
      exact List.mem_takeWhile_imp hch
    · cases h

/-- A letter-then-digits list avoids p. -/
theorem no_p_cons {c1 : Char} {t : List Char} (hc1 : c1 ≠ 'p')
    (ht : ∀ ch ∈ t, ch.isDigit = true) : 'p' ∉ c1 :: t := by
  intro hp
  rcases List.mem_cons.mp hp with h1 | hp
  · exact hc1 h1.symm
  · exact absurd (ht _ hp) (by decide)

/-- A letter-sign-digits list avoids p. -/
theorem no_p_cons2 {c1 c2 : Char} {t : List Char} (hc1 : c1 ≠ 'p')
    (hc2 : c2 ≠ 'p') (ht : ∀ ch ∈ t, ch.isDigit = true) :
    'p' ∉ c1 :: c2 :: t := by
  intro hp
  rcases List.mem_cons.mp hp with h1 | hp
  · exact hc1 h1.symm
  · rcases List.mem_cons.mp hp with h2 | hp
    · exact hc2 h2.symm
    · exact absurd (ht _ hp) (by decide)

/-- A successful exponent parse contains no letter p. -/
theorem pyFloatExpo_no_p {m q : ℚ} {r : List Char}
    (h : pyFloatExpo m r = some q) : 'p' ∉ r := by
  unfold pyFloatExpo at h
  split at h
  · simp
  · exact no_p_cons2 (by decide) (by decide) (pyFloatExpoDigits_chars h)
  · exact no_p_cons2 (by decide) (by decide) (pyFloatExpoDigits_chars h)
  · exact no_p_cons (by decide) (pyFloatExpoDigits_chars h)
  · exact no_p_cons2 (by decide) (by decide) (pyFloatExpoDigits_chars h)
  · exact no_p_cons2 (by decide) (by decide) (pyFloatExpoDigits_chars h)
  · exact no_p_cons (by decide) (pyFloatExpoDigits_chars h)
  · cases h

/-- A numeric literal accepted by `pyFloatUnsigned` never contains the
letter p. -/
theorem pyFloatUnsigned_no_p {s : List Char} {q : ℚ}
    (h : pyFloatUnsigned s = some q) : 'p' ∉ s := by
  unfold pyFloatUnsigned at h
  split at h
  · cases h
  · rename_i m r hm
    obtain ⟨pre, hs, hpre⟩ := pyFloatMantissa_chars hm
    subst hs
    intro hp
    rcases List.mem_append.mp hp with hp | hp
    · rcases hpre 'p' hp with hd | hdot
      · exact absurd hd (by decide)
      · exact absurd hdot (by decide)
    · exact absurd hp (pyFloatExpo_no_p h)

/-- A numeric literal accepted by `pyFloat` never contains the letter p. -/
theorem pyFloat_no_p {s : List Char} {q : ℚ} (h : pyFloat s = some q) :
    'p' ∉ s := by
  unfold pyFloat at h
  split at h
  · rename_i t
    intro hp
    rcases List.mem_cons.mp hp with h1 | hp
    · exact absurd h1 (by decide)
    · exact absurd hp (pyFloatUnsigned_no_p h)
  · rename_i t
    rw [Option.map_eq_some'] at h
    obtain ⟨q', hq', _⟩ := h
    intro hp
    rcases List.mem_cons.mp hp with h1 | hp
    · exact absurd h1 (by decide)
    · exact absurd hp (pyFloatUnsigned_no_p hq')
  all_goals exact pyFloatUnsigned_no_p h

/-- C8: on a well-formed label `p<a>p<b>` whose two components `a` and `b`
are numeric, `parse_percentile` returns exactly the pair of their float
values — the leading "p" is stripped, the rest splits at the internal
"p", and both parts convert.  (Purity and determinism are inherent in the
embedding: the parser is a function of the label alone.) -/
theorem parse_percentile_pair :
    ∀ (a b : List Char) (qa qb : ℚ),
      pyFloat a = some qa → pyFloat b = some qb →
      parsePercentileChars ('p' :: a ++ 'p' :: b) = some [qa, qb] := by
  intro a b qa qb ha hb
  have hpa : 'p' ∉ a := pyFloat_no_p ha
  have hpb : 'p' ∉ b := pyFloat_no_p hb
  have hna : a ≠ [] := by
    rintro rfl
    rw [pyFloat_nil] at ha
    cases ha
  have hnb : b ≠ [] := by
    rintro rfl
    rw [pyFloat_nil] at hb
    cases hb
  unfold parsePercentileChars
  rw [pyStrip_label a b hpa hpb hna hnb, pySplit_append 'p' a b hpa,
    pySplit_no_sep 'p' b hpb]
  simp [mapFloats, ha, hb]

/-- C8 witness: the pair theorem applied to the label "p99.9p100", whose
components are "99.9" and "100". -/
theorem parse_percentile_pair_spot :
    pyFloat ['9', '9', '.', '9'] = some (mkRat 999 10) ∧
      pyFloat ['1', '0', '0'] = some 100 ∧
      parsePercentileChars
        ('p' :: ['9', '9', '.', '9'] ++ 'p' :: ['1', '0', '0']) =
        some [mkRat 999 10, 100] :=
  ⟨by decide, by decide,
   parse_percentile_pair _ _ _ _ (by decide) (by decide)⟩
